import Mathlib

/-
Verification of the remote-execution and incremental log-synchronization
subsystem of the Inspire CLI, as a shallow embedding in Lean 4.

File contents are byte lists; the file system is represented explicitly
by the `Option Bytes` content of the one or two files each operation
touches.  Network fetches are oracles passed in as functions, and the
retry/poll loops of the source are translated with explicit fuel equal to
the source's own bound where one exists.
-/

/-- Log file contents are modelled as lists of bytes. -/
abbrev Bytes := List Nat

/-- Size in bytes of a possibly missing file (0 when the file is absent). -/
def fileSize (cache : Option Bytes) : Nat :=
  match cache with
  | some c => c.length
  | none => 0

/-- Observable side effects of `fetch_remote_log_via_bridge`. -/
inductive Effect
  | dispatch
  | waitArtifact
  | prune
deriving DecidableEq, Repr

/-- Retention window of `_prune_old_logs` in seconds (7 days). -/
def pruneAgeLimit : Nat := 7 * 24 * 3600

/-- Embedding of `_prune_old_logs` restricted to the cache file under
consideration: the file is deleted exactly when its age exceeds the
retention window. -/
def prune_old_logs (age : Nat) (file : Option Bytes) : Option Bytes :=
  if pruneAgeLimit < age then none else file

/-- Embedding of `fetch_remote_log_via_bridge` (forge.py): if the cache
file exists and no refresh is requested, return it unchanged with no
effects; otherwise dispatch the log workflow, wait for the artifact
(which writes the full remote content to the cache file), and prune old
logs (the just-written file has age 0 and survives).  Returns the cache
content after the call together with the list of effects performed. -/
def fetch_remote_log_via_bridge (cache : Option Bytes) (refresh : Bool)
    (remote : Bytes) : Option Bytes × List Effect :=
  if cache.isSome && !refresh then
    (cache, [])
  else
    (prune_old_logs 0 (some remote),
     [Effect.dispatch, Effect.waitArtifact, Effect.prune])

/-- Embedding of `fetch_remote_log_incremental` (forge.py): the workflow
is dispatched with `start_offset`, the artifact (the remote bytes from
that offset on, here the oracle `delta`) is written to a temporary file,
and `bytes_written` is its size.  When `bytes_written > 0` the delta is
appended to the cache file if it exists and `start_offset > 0`, and
otherwise replaces it; when `bytes_written = 0` the cache file is not
touched.  Returns the cache content after the call and `bytes_written`. -/
def fetch_remote_log_incremental (delta : Bytes) (cache : Option Bytes)
    (start_offset : Nat) : Option Bytes × Nat :=
  let bytes_written := delta.length
  if 0 < bytes_written then
    match cache with
    | some content =>
      if 0 < start_offset then (some (content ++ delta), bytes_written)
      else (some delta, bytes_written)
    | none => (some delta, bytes_written)
  else
    (cache, bytes_written)

/-- Events of the single-job `inspire job logs` fetch path, in order. -/
inductive LogEvent
  | resetOffset
  | incrementalFetch (offset : Nat)
  | fullFetch
deriving DecidableEq, Repr

/-- State after the single-job `inspire job logs` fetch path: the stored
byte offset, the cache file content, and the trace of events. -/
structure LogsOutcome where
  stored : Nat
  cache : Option Bytes
  trace : List LogEvent
deriving DecidableEq, Repr

/-- Embedding of the fetch portion of the `logs` command (job.py,
single-job non-follow path), on its successful path: read the stored
offset (0 under `--refresh`), reset it when it is positive but the cache
file is missing, then either fetch incrementally (offset positive and
cache present, storing `current_offset + bytes_added`) or fetch fully
via the bridge workflow (storing the resulting file size), or do nothing
when the offset is 0, the cache exists and no refresh was asked. -/
def logs_fetch (refresh : Bool) (stored0 : Nat) (cache0 : Option Bytes)
    (delta full : Bytes) : LogsOutcome :=
  let co0 := if refresh then 0 else stored0
  let doReset := 0 < co0 ∧ cache0 = none
  let co := if doReset then 0 else co0
  let stored1 := if doReset then 0 else stored0
  let trace0 : List LogEvent := if doReset then [LogEvent.resetOffset] else []
  if 0 < co ∧ cache0.isSome then
    let r := fetch_remote_log_incremental delta cache0 co
    ⟨co + r.2, r.1, trace0 ++ [LogEvent.incrementalFetch co]⟩
  else if refresh = true ∨ cache0 = none then
    let r := fetch_remote_log_via_bridge cache0 refresh full
    match r.1 with
    | some c => ⟨c.length, some c, trace0 ++ [LogEvent.fullFetch]⟩
    | none => ⟨stored1, none, trace0 ++ [LogEvent.fullFetch]⟩
  else
    ⟨stored1, cache0, trace0⟩

/-- A workflow run as returned by `get_workflow_run`: the fields the
completion poller reads, each optional as `dict.get` is. -/
structure Run where
  status : Option String
  conclusion : Option String
  html_url : Option String
deriving DecidableEq, Repr

/-- Embedding of `status in ("completed", "success", "failure")`. -/
def isTerminalStatus (s : Option String) : Bool :=
  s == some "completed" || s == some "success" || s == some "failure"

/-- Python `a or b` on an optional integer where 0 is falsy. -/
def pyOrNat (a : Option Nat) (b : Nat) : Nat :=
  match a with
  | some n => if n = 0 then b else n
  | none => b

/-- Python `a or b` on an optional string where the empty string is falsy. -/
def pyOrStr (a : Option String) (b : String) : String :=
  match a with
  | some s => if s = "" then b else s
  | none => b

/-- The result dict built by `wait_for_workflow_completion` on a terminal
observation. -/
structure WaitResult where
  status : String
  conclusion : String
  run_id : String
  html_url : String
deriving DecidableEq, Repr

/-- Build the result dict from a terminal run (`conclusion or status`,
`run.get("html_url", "")`). -/
def mkWaitResult (runId : String) (r : Run) : WaitResult :=
  ⟨r.status.getD "", pyOrStr r.conclusion (r.status.getD ""), runId,
   r.html_url.getD ""⟩

/-- Outcome of the completion-wait loop.  `timedOut i` carries the index
of the deadline check that failed; `completed res n` carries the result
and the number of status polls performed. -/
inductive WaitOutcome
  | timedOut (checksBefore : Nat)
  | completed (res : WaitResult) (pollsMade : Nat)
  | outOfFuel
deriving DecidableEq, Repr

/-- Effective wait bound of `wait_for_workflow_completion`:
`timeout or config.remote_timeout or 90`, clamped below by 5 seconds
(`max(5, int(timeout_seconds))`). -/
def effectiveTimeout (timeout remoteTimeout : Option Nat) : Nat :=
  max 5 (pyOrNat timeout (pyOrNat remoteTimeout 90))

/-- The poll loop of `wait_for_workflow_completion`: at iteration `i`
first compare the clock against the deadline, then poll the run; return
on the first terminal status.  `checkTime i` is the value of
`time.time()` at iteration `i`'s deadline check and `polls i` the run
returned by `get_workflow_run` at iteration `i`. -/
def waitLoop (checkTime : Nat → Nat) (polls : Nat → Run) (runId : String)
    (deadline : Nat) : Nat → Nat → WaitOutcome
  | 0, _ => WaitOutcome.outOfFuel
  | fuel + 1, i =>
    if deadline < checkTime i then WaitOutcome.timedOut i
    else if isTerminalStatus (polls i).status then
      WaitOutcome.completed (mkWaitResult runId (polls i)) (i + 1)
    else waitLoop checkTime polls runId deadline fuel (i + 1)

/-- Embedding of `wait_for_workflow_completion` (forge.py): `t0` is the
clock value when the deadline is computed. -/
def wait_for_workflow_completion (checkTime : Nat → Nat) (polls : Nat → Run)
    (runId : String) (t0 : Nat) (timeout remoteTimeout : Option Nat)
    (fuel : Nat) : WaitOutcome :=
  waitLoop checkTime polls runId (t0 + effectiveTimeout timeout remoteTimeout)
    fuel 0

/-- Outcome of one HTTP attempt inside `request_json`: a parsed payload,
an HTTP error response with a status code, or a transport-level URL
error. -/
inductive Attempt
  | ok (payload : Nat)
  | httpErr (code : Nat)
  | urlErr
deriving DecidableEq, Repr

/-- Result of `request_json`: a parsed payload or a raised `ForgeError`. -/
inductive RJResult
  | success (payload : Nat)
  | forgeError
deriving DecidableEq, Repr

/-- Observable behaviour of `request_json`: the final result, the list of
sleep durations performed between attempts, and the number of HTTP
attempts made. -/
structure RJOut where
  result : RJResult
  sleeps : List Nat
  attempts : Nat
deriving DecidableEq, Repr

/-- `max_retries = 3` in `request_json`. -/
def maxRetries : Nat := 3

/-- `retry_delay = 2.0` seconds in `request_json`. -/
def retryDelay : Nat := 2

/-- The attempt loop of `request_json` (`for attempt in range(max_retries
+ 1)`): an HTTP error with code `>= 500`, or a URL error, sleeps and
retries while `attempt < max_retries`; any other HTTP error raises
`ForgeError` at once.  The fuel-0 case models the unreachable
`return {}` after the loop. -/
def rjGo (oracle : Nat → Attempt) : Nat → Nat → RJOut
  | 0, _ => ⟨RJResult.success 0, [], 0⟩
  | fuel + 1, attempt =>
    match oracle attempt with
    | Attempt.ok p => ⟨RJResult.success p, [], 1⟩
    | Attempt.httpErr c =>
      if 500 ≤ c ∧ attempt < maxRetries then
        let rest := rjGo oracle fuel (attempt + 1)
        ⟨rest.result, retryDelay :: rest.sleeps, rest.attempts + 1⟩
      else ⟨RJResult.forgeError, [], 1⟩
    | Attempt.urlErr =>
      if attempt < maxRetries then
        let rest := rjGo oracle fuel (attempt + 1)
        ⟨rest.result, retryDelay :: rest.sleeps, rest.attempts + 1⟩
      else ⟨RJResult.forgeError, [], 1⟩

/-- Embedding of `ForgeClient.request_json` (forge.py): up to
`max_retries + 1` attempts, the oracle giving each attempt's outcome. -/
def request_json (oracle : Nat → Attempt) : RJOut :=
  rjGo oracle (maxRetries + 1) 0

/-- A workflow run as scanned by the correlation search: its id already
stringified, and the dict produced by `_parse_event_inputs` (the inputs
decoded from `event_payload`, `[]` when missing or unparseable), with
values already stringified. -/
structure CRun where
  id : String
  inputs : List (String × String)
deriving DecidableEq, Repr

/-- Embedding of `str(inputs.get(key, ""))` on a parsed inputs dict. -/
def lookupInput (inputs : List (String × String)) (k : String) : String :=
  match inputs.find? (fun kv => kv.1 == k) with
  | some kv => kv.2
  | none => ""

/-- Embedding of `_matches_inputs` (forge.py): every expected key with a
non-empty value must be embedded with an equal stringified value. -/
def matches_inputs (inputs expected : List (String × String)) : Bool :=
  expected.all (fun kv => kv.2 == "" || lookupInput inputs kv.1 == kv.2)

/-- Embedding of `_find_run_by_inputs` (forge.py): the first run whose
parsed inputs are non-empty and match the expected inputs. -/
def find_run_by_inputs (runs : List CRun) (expected : List (String × String)) :
    Option CRun :=
  runs.find? (fun r => !r.inputs.isEmpty && matches_inputs r.inputs expected)

/-- Matching predicate in the words of the claim and spec, for comparison
with `find_run_by_inputs`: a run matches when, for every key of the
expected inputs whose value is non-empty, the stringified value embedded
in the run's inputs equals the stringified expected value (no condition
on the inputs being non-empty). -/
def specClaimMatches (r : CRun) (expected : List (String × String)) : Bool :=
  expected.all (fun kv => kv.2 == "" || lookupInput r.inputs kv.1 == kv.2)

/-- A page of the runs listing: `workflow_runs` and the extracted total
count (`_extract_total_count`, `none` when absent or unparseable). -/
structure RunsResponse where
  workflow_runs : List CRun
  total_count : Option Nat
deriving DecidableEq, Repr

/-- Page size used by the correlation search (`limit = 20`). -/
def pageLimit : Nat := 20

/-- One retry round of the correlation search in `trigger_sync_workflow`
(forge.py): fetch page 1 and scan it; when no match and the total count
exceeds the page size, fetch and scan the last page
`(total + limit - 1) // limit`.  `fetch r p` is the response for page
`p` in round `r` (`none` when the request raises `ForgeError`, which the
round catches).  Returns the found run id and the log of pages
requested. -/
def syncRound (fetch : Nat → Nat → Option RunsResponse)
    (expected : List (String × String)) (r : Nat) :
    Option String × List (Nat × Nat) :=
  match fetch r 1 with
  | none => (none, [(r, 1)])
  | some resp =>
    match find_run_by_inputs resp.workflow_runs expected with
    | some run => (some run.id, [(r, 1)])
    | none =>
      match resp.total_count with
      | some t =>
        if pageLimit < t then
          let lastPage := (t + pageLimit - 1) / pageLimit
          match fetch r lastPage with
          | none => (none, [(r, 1), (r, lastPage)])
          | some resp2 =>
            match find_run_by_inputs resp2.workflow_runs expected with
            | some run => (some run.id, [(r, 1), (r, lastPage)])
            | none => (none, [(r, 1), (r, lastPage)])
        else (none, [(r, 1)])
      | none => (none, [(r, 1)])

/-- The run-correlation search of `trigger_sync_workflow` (forge.py):
three retry rounds (`for _ in range(3)`), returning the first found run
id or the empty string, together with the full request log. -/
def trigger_sync_workflow_search (fetch : Nat → Nat → Option RunsResponse)
    (expected : List (String × String)) : String × List (Nat × Nat) :=
  match syncRound fetch expected 0 with
  | (some id, l) => (id, l)
  | (none, l0) =>
    match syncRound fetch expected 1 with
    | (some id, l) => (id, l0 ++ l)
    | (none, l1) =>
      match syncRound fetch expected 2 with
      | (some id, l) => (id, l0 ++ l1 ++ l)
      | (none, l2) => ("", l0 ++ l1 ++ l2)

/-- Outcome of the direct-path connectivity probe `is_tunnel_available`
inside `bridge exec`: the probe returns true, returns false, or raises
(`TunnelNotAvailableError` or any other exception, both caught by the
surrounding handlers). -/
inductive ProbeResult
  | avail
  | notAvail
  | raisedTunnelNA
  | raisedOther
deriving DecidableEq, Repr

/-- Outcome of the direct SSH execution `run_ssh_command`: a finished
process with a return code, or a raised exception. -/
inductive DirectRun
  | finished (returncode : Int)
  | raised
deriving DecidableEq, Repr

/-- Transport invocations of `bridge exec`, in order: an attempt to
execute over the direct SSH path, or a dispatch of the mediated
Gitea-workflow path (`trigger_bridge_action_workflow`). -/
inductive ExecEvent
  | directAttempt
  | mediatedDispatch
deriving DecidableEq, Repr

/-- Embedding of the transport routing of `exec_command` (bridge.py): the
direct path is tried only when `--no-tunnel` is absent and no artifact
path or download directory is requested; a probe returning false, a
probe raising, or an exception during direct execution falls through to
the mediated path; a finished direct execution exits the command
(success or failure alike) without touching the mediated path.  Returns
the ordered list of transport invocations. -/
def exec_command_route (noTunnel hasArtifactPaths hasDownload : Bool)
    (probe : ProbeResult) (direct : DirectRun) : List ExecEvent :=
  if !noTunnel && !hasArtifactPaths && !hasDownload then
    match probe with
    | ProbeResult.avail =>
      match direct with
      | DirectRun.finished _ => [ExecEvent.directAttempt]
      | DirectRun.raised => [ExecEvent.directAttempt, ExecEvent.mediatedDispatch]
    | ProbeResult.notAvail => [ExecEvent.mediatedDispatch]
    | ProbeResult.raisedTunnelNA => [ExecEvent.mediatedDispatch]
    | ProbeResult.raisedOther => [ExecEvent.mediatedDispatch]
  else [ExecEvent.mediatedDispatch]

/-- The apostrophe character, written by code so that shell-quoting can
be stated over it. -/
def squote : Char := Char.ofNat 39

/-- The double-quote character. -/
def sdquote : Char := Char.ofNat 34

/-- Characters `shlex.quote` treats as safe: ASCII `\w` plus
`@ % + = : , . / -` (Python `_find_unsafe` with `re.ASCII`). -/
def shlexSafeChar (c : Char) : Bool :=
  c.isAlphanum || c == '_' || c == '@' || c == '%' || c == '+' || c == '=' ||
    c == ':' || c == ',' || c == '.' || c == '/' || c == '-'

/-- Embedding of `shlex.quote`: the empty string quotes to two
apostrophes, a string of safe characters is returned unchanged, and any
other string is wrapped in apostrophes with every inner apostrophe
replaced by the five-character sequence apostrophe, double quote,
apostrophe, double quote, apostrophe. -/
def shlexQuote (s : List Char) : List Char :=
  if s = [] then [squote, squote]
  else if s.all shlexSafeChar then s
  else
    squote ::
      (s.flatMap (fun c =>
        if c == squote then [squote, sdquote, squote, sdquote, squote]
        else [c])) ++ [squote]

/-- URL rewriting of `_get_proxy_command` (tunnel.py): an `https://`
scheme becomes `wss://`, an `http://` scheme becomes `ws://`, and any
other URL is left unchanged. -/
def toWsUrl (url : List Char) : List Char :=
  match url with
  | 'h' :: 't' :: 't' :: 'p' :: 's' :: ':' :: '/' :: '/' :: rest =>
    'w' :: 's' :: 's' :: ':' :: '/' :: '/' :: rest
  | 'h' :: 't' :: 't' :: 'p' :: ':' :: '/' :: '/' :: rest =>
    'w' :: 's' :: ':' :: '/' :: '/' :: rest
  | _ => url

/-- The literal `stdio://%h:%p` argument of the helper invocation. -/
def stdioToken : List Char := "stdio://%h:%p".toList

/-- Embedding of `_get_proxy_command` (tunnel.py), over the profile's
proxy URL and the helper binary path as character lists.  Without
`quiet` the command is the three shell-quoted words `<bin> <ws-url>
stdio://%h:%p`; with `quiet` the helper invocation gets `2>/dev/null`
appended and the whole command is wrapped in `sh -c <quoted command>`. -/
def get_proxy_command (proxyUrl : List Char) (rtunnelBin : List Char)
    (quiet : Bool) : List Char :=
  let wsUrl := toWsUrl proxyUrl
  if quiet then
    let cmd := rtunnelBin ++ ' ' :: shlexQuote wsUrl ++ ' ' :: stdioToken ++
      " 2>/dev/null".toList
    "sh -c ".toList ++ shlexQuote cmd
  else
    shlexQuote rtunnelBin ++ ' ' :: shlexQuote wsUrl ++ ' ' ::
      shlexQuote stdioToken

/-- A bridge profile (tunnel.py `BridgeProfile`). -/
structure BridgeProfile where
  name : String
  proxy_url : String
  ssh_user : String
  ssh_port : Nat
deriving DecidableEq, Repr

/-- The tunnel configuration (tunnel.py `TunnelConfig`): the bridges
dict, modelled as an insertion-ordered association list keyed by profile
name, and the optional default profile name. -/
structure TunnelConfig where
  bridges : List BridgeProfile
  default_bridge : Option String
deriving DecidableEq, Repr

/-- The empty tunnel configuration. -/
def emptyTunnelConfig : TunnelConfig := ⟨[], none⟩

/-- The key view of the bridges dict. -/
def bridgeNames (c : TunnelConfig) : List String :=
  c.bridges.map (fun p => p.name)

/-- Python dict assignment `bridges[p.name] = p`: replace in place when
the key exists, append otherwise. -/
def dictSet (l : List BridgeProfile) (p : BridgeProfile) : List BridgeProfile :=
  if l.any (fun q => q.name == p.name) then
    l.map (fun q => if q.name == p.name then p else q)
  else l ++ [p]

/-- Embedding of `TunnelConfig.add_bridge`: store the profile under its
name and make it the default when no default is set. -/
def add_bridge (c : TunnelConfig) (p : BridgeProfile) : TunnelConfig :=
  { bridges := dictSet c.bridges p,
    default_bridge :=
      match c.default_bridge with
      | none => some p.name
      | some d => some d }

/-- Embedding of `TunnelConfig.remove_bridge`: delete the named profile
when present; when it was the default, the new default is the first
remaining profile name (or `none`).  Returns the new configuration and
whether a profile was removed. -/
def remove_bridge (c : TunnelConfig) (n : String) : TunnelConfig × Bool :=
  if c.bridges.any (fun q => q.name == n) then
    let remaining := c.bridges.filter (fun q => !(q.name == n))
    ({ bridges := remaining,
       default_bridge :=
         if c.default_bridge == some n then remaining.head?.map (fun p => p.name)
         else c.default_bridge }, true)
  else (c, false)

/-- Python truthiness of an optional string (`None` and `""` falsy). -/
def pyTruthyStr (s : Option String) : Bool :=
  match s with
  | some t => !(t == "")
  | none => false

/-- Embedding of `TunnelConfig.get_bridge`: a truthy `name` argument is
looked up directly; otherwise a truthy default name is looked up;
otherwise a single stored bridge is returned; otherwise `none`. -/
def get_bridge (c : TunnelConfig) (name : Option String) : Option BridgeProfile :=
  if pyTruthyStr name then
    c.bridges.find? (fun q => some q.name == name)
  else if pyTruthyStr c.default_bridge then
    match c.default_bridge with
    | some d => c.bridges.find? (fun q => q.name == d)
    | none => none
  else if c.bridges.length == 1 then c.bridges.head?
  else none

/-- A mutation of the tunnel configuration. -/
inductive TOp
  | add (p : BridgeProfile)
  | rem (n : String)
deriving DecidableEq, Repr

/-- Apply one mutation. -/
def applyTOp (c : TunnelConfig) (op : TOp) : TunnelConfig :=
  match op with
  | TOp.add p => add_bridge c p
  | TOp.rem n => (remove_bridge c n).1

/-- Apply a sequence of mutations from left to right. -/
def applyTOps (c : TunnelConfig) (ops : List TOp) : TunnelConfig :=
  ops.foldl applyTOp c

/-- The default-pointer invariant of `TunnelConfig`: the default name is
`none` exactly when no bridges are stored, and otherwise names a stored
profile. -/
def tunnelInv (c : TunnelConfig) : Prop :=
  (c.default_bridge = none ↔ c.bridges = []) ∧
    ∀ d, c.default_bridge = some d → d ∈ bridgeNames c

/-- All stored profiles have a non-empty name (the side condition under
which the Python truthiness test on the default name cannot misfire). -/
def namesNonEmpty (c : TunnelConfig) : Prop :=
  ∀ q ∈ c.bridges, q.name ≠ ""

/-- If every iteration before `i` is within the deadline and
non-terminal, then the wait loop times out at iteration `i` when the
clock exceeds the deadline there, and completes with the iteration-`i`
run when that run is terminal, having polled exactly `i + 1` times. -/
theorem waitLoop_sound (ct : Nat → Nat) (polls : Nat → Run) (runId : String)
    (dl : Nat) :
    ∀ (fuel k i : Nat), k ≤ i → i - k < fuel →
      (∀ j, k ≤ j → j < i →
        ct j ≤ dl ∧ isTerminalStatus (polls j).status = false) →
      ((dl < ct i →
          waitLoop ct polls runId dl fuel k = WaitOutcome.timedOut i) ∧
        (ct i ≤ dl → isTerminalStatus (polls i).status = true →
          waitLoop ct polls runId dl fuel k
            = WaitOutcome.completed (mkWaitResult runId (polls i)) (i + 1))) := by
  intro fuel
  induction fuel with
  | zero => intro k i hk hfuel _; omega
  | succ fuel ih =>
    intro k i hk hfuel hj
    rcases Nat.eq_or_lt_of_le hk with heq | hlt
    · subst heq
      constructor
      · intro hdl
        simp [waitLoop, hdl]
      · intro hle hterm
        have hnot : ¬ dl < ct k := Nat.not_lt.mpr hle
        simp [waitLoop, hnot, hterm]
    · have hck := hj k (le_refl k) hlt
      have hrec := ih (k + 1) i hlt (by omega)
        (fun j hj1 hj2 => hj j (by omega) hj2)
      have hnot : ¬ dl < ct k := Nat.not_lt.mpr hck.1
      have hstep : waitLoop ct polls runId dl (fuel + 1) k
          = waitLoop ct polls runId dl fuel (k + 1) := by
        simp [waitLoop, hnot, hck.2]
      rw [hstep]
      exact hrec

/-- Inversion: a timed-out wait loop exceeded the deadline at the
reported check, and every earlier iteration was within the deadline and
non-terminal. -/
theorem waitLoop_timedOut_inv (ct : Nat → Nat) (polls : Nat → Run)
    (runId : String) (dl : Nat) :
    ∀ (fuel k i : Nat),
      waitLoop ct polls runId dl fuel k = WaitOutcome.timedOut i →
      k ≤ i ∧ dl < ct i ∧
        ∀ j, k ≤ j → j < i →
          ct j ≤ dl ∧ isTerminalStatus (polls j).status = false := by
  intro fuel
  induction fuel with
  | zero => intro k i h; simp [waitLoop] at h
  | succ fuel ih =>
    intro k i h
    by_cases hdl : dl < ct k
    · have hk : k = i := by simpa [waitLoop, hdl] using h
      subst hk
      exact ⟨le_refl k, hdl, fun j hj1 hj2 => absurd (lt_of_le_of_lt hj1 hj2)
        (lt_irrefl k)⟩
    · by_cases hterm : isTerminalStatus (polls k).status = true
      · simp [waitLoop, hdl, hterm] at h
      · have hstep : waitLoop ct polls runId dl (fuel + 1) k
            = waitLoop ct polls runId dl fuel (k + 1) := by
          simp [waitLoop, hdl, hterm]
        rw [hstep] at h
        obtain ⟨hk1, hdl', hall⟩ := ih (k + 1) i h
        refine ⟨by omega, hdl', ?_⟩
        intro j hj1 hj2
        rcases Nat.eq_or_lt_of_le hj1 with he | hl
        · subst he
          exact ⟨Nat.not_lt.mp hdl, Bool.eq_false_iff.mpr hterm⟩
        · exact hall j hl hj2

/-- Counterexample to claim C3: with the timeout argument 2 the deadline
is `max(5, 2) = 5` seconds, so at the iteration-1 check, 3 seconds
elapsed (more than the given timeout of 2, and with only a non-terminal
status observed so far), no `TimeoutError` is raised — the loop keeps
polling and returns the completed result instead. -/
theorem c3_counterexample :
    wait_for_workflow_completion (fun i => 3 * i)
        (fun i =>
          if i = 0 then Run.mk (some "in_progress") none none
          else Run.mk (some "completed") (some "success") (some "url"))
        "42" 0 (some 2) none 10
      = WaitOutcome.completed (WaitResult.mk "completed" "success" "42" "url")
          2 ∧
    2 < 3 * 1 ∧
    isTerminalStatus (Run.mk (some "in_progress") none none).status = false := by
  decide

/-- Claim C3 (amended): `wait_for_workflow_completion` raises
`TimeoutError` exactly when an iteration's clock check exceeds the
deadline `t0 + max(5, timeout or remote_timeout or 90)` with no earlier
terminal observation, and it returns the result dict
`{status, conclusion, run_id, html_url}` at the first poll observing a
status among completed/success/failure, having polled exactly once per
iteration up to that point and never again. -/
theorem c3_wait_for_completion_semantics :
    (∀ (ct : Nat → Nat) (polls : Nat → Run) (runId : String) (t0 : Nat)
        (timeout remoteTimeout : Option Nat) (fuel i : Nat),
      i < fuel →
      (∀ j, j < i → ct j ≤ t0 + effectiveTimeout timeout remoteTimeout ∧
        isTerminalStatus (polls j).status = false) →
      ((t0 + effectiveTimeout timeout remoteTimeout < ct i →
          wait_for_workflow_completion ct polls runId t0 timeout remoteTimeout
            fuel = WaitOutcome.timedOut i) ∧
        (ct i ≤ t0 + effectiveTimeout timeout remoteTimeout →
          isTerminalStatus (polls i).status = true →
          wait_for_workflow_completion ct polls runId t0 timeout remoteTimeout
            fuel = WaitOutcome.completed (mkWaitResult runId (polls i))
              (i + 1)))) ∧
    (∀ (ct : Nat → Nat) (polls : Nat → Run) (runId : String) (t0 : Nat)
        (timeout remoteTimeout : Option Nat) (fuel i : Nat),
      wait_for_workflow_completion ct polls runId t0 timeout remoteTimeout fuel
          = WaitOutcome.timedOut i →
      t0 + effectiveTimeout timeout remoteTimeout < ct i ∧
        ∀ j, j < i → ct j ≤ t0 + effectiveTimeout timeout remoteTimeout ∧
          isTerminalStatus (polls j).status = false) := by
  constructor
  · intro ct polls runId t0 timeout rt fuel i hfuel hj
    exact waitLoop_sound ct polls runId _ fuel 0 i (Nat.zero_le i) (by omega)
      (fun j _ hj2 => hj j hj2)
  · intro ct polls runId t0 timeout rt fuel i h
    obtain ⟨_, hdl, hall⟩ := waitLoop_timedOut_inv ct polls runId _ fuel 0 i h
    exact ⟨hdl, fun j hj2 => hall j (Nat.zero_le j) hj2⟩

/-- Witness for `c3_wait_for_completion_semantics` at concrete inputs:
a run that turns terminal at iteration 1 is returned after exactly two
polls, and a clock that jumps past the deadline at iteration 1 times
out there. -/
theorem c3_wait_for_completion_semantics_witness :
    (1 < 10) ∧
    ((100 + effectiveTimeout (some 7) none < 3 * 1 →
        wait_for_workflow_completion (fun i => 3 * i)
          (fun i =>
            if i = 0 then Run.mk (some "queued") none none
            else Run.mk (some "completed") (some "success") (some "url"))
          "7" 100 (some 7) none 10 = WaitOutcome.timedOut 1) ∧
      (3 * 1 ≤ 100 + effectiveTimeout (some 7) none →
        isTerminalStatus
            ((fun i =>
              if i = 0 then Run.mk (some "queued") none none
              else Run.mk (some "completed") (some "success") (some "url")) 1
              : Run).status = true →
        wait_for_workflow_completion (fun i => 3 * i)
          (fun i =>
            if i = 0 then Run.mk (some "queued") none none
            else Run.mk (some "completed") (some "success") (some "url"))
          "7" 100 (some 7) none 10
          = WaitOutcome.completed
              (mkWaitResult "7"
                ((fun i =>
                  if i = 0 then Run.mk (some "queued") none none
                  else Run.mk (some "completed") (some "success") (some "url"))
                  1)) (1 + 1))) :=
  ⟨by decide,
   c3_wait_for_completion_semantics.1 (fun i => 3 * i)
     (fun i =>
       if i = 0 then Run.mk (some "queued") none none
       else Run.mk (some "completed") (some "success") (some "url"))
     "7" 100 (some 7) none 10 1 (by decide) (fun j hj => by
       interval_cases j
       exact ⟨by decide, by decide⟩)⟩

/-- Claim C7: `request_json` raises `ForgeError` at once — one attempt,
no sleep — when the first attempt yields an HTTP error response with a
status code below 500, and for status codes 500 and above it retries up
to 3 additional attempts, sleeping the fixed 2-second delay between
attempts, before raising `ForgeError`. -/
theorem c7_request_json_retry_policy :
    (∀ (oracle : Nat → Attempt) (c : Nat), oracle 0 = Attempt.httpErr c →
      c < 500 → request_json oracle = ⟨RJResult.forgeError, [], 1⟩) ∧
    (∀ (oracle : Nat → Attempt) (codes : Nat → Nat),
      (∀ i, i ≤ 3 → oracle i = Attempt.httpErr (codes i)) →
      (∀ i, i ≤ 3 → 500 ≤ codes i) →
      request_json oracle
        = ⟨RJResult.forgeError, [retryDelay, retryDelay, retryDelay], 4⟩) := by
  constructor
  · intro oracle c h0 hc
    have hnot : ¬ 500 ≤ c := by omega
    simp [request_json, rjGo, h0, hnot]
  · intro oracle codes ho hc
    have h0 := ho 0 (by omega)
    have h1 := ho 1 (by omega)
    have h2 := ho 2 (by omega)
    have h3 := ho 3 (by omega)
    have c0 := hc 0 (by omega)
    have c1 := hc 1 (by omega)
    have c2 := hc 2 (by omega)
    have c3 := hc 3 (by omega)
    simp [request_json, rjGo, maxRetries, h0, h1, h2, h3, c0, c1, c2, c3]

/-- Witness for `c7_request_json_retry_policy` at concrete oracles: a
constant 404 fails immediately with no sleep; a constant 503 is retried
three times with 2-second sleeps and then fails. -/
theorem c7_request_json_retry_policy_witness :
    ((fun _ => Attempt.httpErr 404 : Nat → Attempt) 0 = Attempt.httpErr 404 ∧
      404 < 500 ∧
      request_json (fun _ => Attempt.httpErr 404)
        = ⟨RJResult.forgeError, [], 1⟩) ∧
    request_json (fun _ => Attempt.httpErr 503)
      = ⟨RJResult.forgeError, [retryDelay, retryDelay, retryDelay], 4⟩ :=
  ⟨⟨rfl, by decide,
    c7_request_json_retry_policy.1 (fun _ => Attempt.httpErr 404) 404 rfl
      (by decide)⟩,
   c7_request_json_retry_policy.2 (fun _ => Attempt.httpErr 503) (fun _ => 503)
     (fun _ _ => rfl) (fun _ _ => by show 500 ≤ 503; omega)⟩

/-- Claim C9: a call of `fetch_remote_log_via_bridge` with `refresh =
false` on an existing cache file returns the cached content unchanged
and performs no effect at all — no workflow dispatch, no artifact poll,
no pruning, no file modification — whatever the remote log contains. -/
theorem c9_via_bridge_cached_noop (c : Bytes) (remote : Bytes) :
    fetch_remote_log_via_bridge (some c) false remote = (some c, []) := by
  simp [fetch_remote_log_via_bridge]

/-- Counterexample to claim C2: with a cache file of size 1 and
`start_offset = n = 2`, an incremental fetch of one byte appends, and
the final size is 2, not `n + b = 3` — the final size is the prior file
size plus `b`, which differs from `n + b` whenever the prior size is not
`n`. -/
theorem c2_counterexample :
    fetch_remote_log_incremental [7] (some [9]) 2 = (some [9, 7], 1) ∧
      ([9, 7] : Bytes).length ≠ 2 + 1 := by
  decide

/-- Claim C2 (amended): for every `n ≥ 0`, `fetch_remote_log_incremental`
with `start_offset = n` appends the fetched delta when `n > 0` and the
cache file exists, leaving the prior content (in particular its first
`n` bytes) unchanged, with final size equal to the prior size plus `b`
(hence `n + b` when the prior size is `n`); it replaces the file
wholesale when `n = 0` or the cache file is missing; and an empty delta
(`b = 0`) causes no write and returns `(cache_path, 0)`. -/
theorem c2_incremental_write_semantics :
    (∀ (n : Nat) (delta c : Bytes), 0 < n →
      fetch_remote_log_incremental delta (some c) n
          = (some (c ++ delta), delta.length) ∧
        (c ++ delta).take c.length = c ∧
        (c.length = n → (c ++ delta).length = n + delta.length)) ∧
    (∀ (delta c : Bytes), delta ≠ [] →
      fetch_remote_log_incremental delta (some c) 0
          = (some delta, delta.length)) ∧
    (∀ (n : Nat) (delta : Bytes), delta ≠ [] →
      fetch_remote_log_incremental delta none n
          = (some delta, delta.length)) ∧
    (∀ (n : Nat) (cache : Option Bytes),
      fetch_remote_log_incremental [] cache n = (cache, 0)) := by
  refine ⟨?_, ?_, ?_, ?_⟩
  · intro n delta c hn
    refine ⟨?_, List.take_left c delta, ?_⟩
    · cases delta with
      | nil => simp [fetch_remote_log_incremental]
      | cons d ds => simp [fetch_remote_log_incremental, hn]
    · intro hlen
      simp [List.length_append, hlen]
  · intro delta c hdelta
    cases delta with
    | nil => exact absurd rfl hdelta
    | cons d ds => simp [fetch_remote_log_incremental]
  · intro n delta hdelta
    cases delta with
    | nil => exact absurd rfl hdelta
    | cons d ds => simp [fetch_remote_log_incremental]
  · intro n cache
    simp [fetch_remote_log_incremental]

/-- Witness for `c2_incremental_write_semantics` at concrete inputs. -/
theorem c2_incremental_write_semantics_witness :
    (fetch_remote_log_incremental [4, 5] (some [1, 2, 3]) 3
        = (some ([1, 2, 3] ++ [4, 5]), ([4, 5] : Bytes).length) ∧
      (([1, 2, 3] : Bytes) ++ [4, 5]).take ([1, 2, 3] : Bytes).length
          = [1, 2, 3] ∧
      (([1, 2, 3] : Bytes).length = 3 →
        (([1, 2, 3] : Bytes) ++ [4, 5]).length = 3 + ([4, 5] : Bytes).length)) ∧
    fetch_remote_log_incremental [4, 5] (some [1, 2, 3]) 0
        = (some [4, 5], ([4, 5] : Bytes).length) ∧
    fetch_remote_log_incremental [4, 5] none 9
        = (some [4, 5], ([4, 5] : Bytes).length) ∧
    fetch_remote_log_incremental [] (some [1, 2, 3]) 3 = (some [1, 2, 3], 0) :=
  ⟨c2_incremental_write_semantics.1 3 [4, 5] [1, 2, 3] (by decide),
   c2_incremental_write_semantics.2.1 [4, 5] [1, 2, 3] (by decide),
   c2_incremental_write_semantics.2.2.1 9 [4, 5] (by decide),
   c2_incremental_write_semantics.2.2.2 3 (some [1, 2, 3])⟩

/-- Claim C1: on the single-job `inspire job logs` fetch path, if the
stored offset equals the cache file's actual size before the fetch,
then after the command (incremental branch and full-fetch branch alike)
the stored offset again equals the cache file's actual size; and the
incremental branch stores exactly `current_offset + bytes_added`, which
is the resulting file size. -/
theorem c1_offset_equals_file_size (refresh : Bool) (stored0 : Nat)
    (cache0 : Option Bytes) (delta full : Bytes)
    (h : stored0 = fileSize cache0) :
    (logs_fetch refresh stored0 cache0 delta full).stored
        = fileSize (logs_fetch refresh stored0 cache0 delta full).cache ∧
    (refresh = false → 0 < stored0 → ∀ c, cache0 = some c →
      logs_fetch refresh stored0 cache0 delta full
          = ⟨stored0 + delta.length, some (c ++ delta),
             [LogEvent.incrementalFetch stored0]⟩) := by
  cases refresh with
  | true =>
    refine ⟨?_, by intro hc; exact absurd hc (by simp)⟩
    simp [logs_fetch, fetch_remote_log_via_bridge, prune_old_logs,
      pruneAgeLimit, fileSize]
  | false =>
    cases cache0 with
    | none =>
      have h0 : stored0 = 0 := by simpa [fileSize] using h
      subst h0
      refine ⟨?_, ?_⟩
      · simp [logs_fetch, fetch_remote_log_via_bridge, prune_old_logs,
          pruneAgeLimit, fileSize]
      · intro _ h0' c hc
        exact absurd hc (by simp)
    | some c =>
      have hlen : stored0 = c.length := by simpa [fileSize] using h
      rcases Nat.eq_zero_or_pos stored0 with h0 | hpos
      · subst h0
        refine ⟨?_, ?_⟩
        · simp [logs_fetch, fileSize, hlen.symm]
        · intro _ h0'
          exact absurd h0' (by simp)
      · subst hlen
        refine ⟨?_, ?_⟩
        · cases delta with
          | nil =>
            simp [logs_fetch, hpos, fetch_remote_log_incremental, fileSize]
          | cons d ds =>
            simp [logs_fetch, hpos, fetch_remote_log_incremental, fileSize]
        · intro _ _ c' hc'
          have hcc : c' = c := by
            injection hc' with hcc
            exact hcc.symm
          subst hcc
          cases delta with
          | nil =>
            simp [logs_fetch, hpos, fetch_remote_log_incremental]
          | cons d ds =>
            simp [logs_fetch, hpos, fetch_remote_log_incremental]

/-- Witness for `c1_offset_equals_file_size` at concrete inputs, on the
incremental branch. -/
theorem c1_offset_equals_file_size_witness :
    (2 = fileSize (some [8, 9])) ∧
    ((logs_fetch false 2 (some [8, 9]) [7] [0]).stored
        = fileSize (logs_fetch false 2 (some [8, 9]) [7] [0]).cache ∧
      (false = false → 0 < 2 → ∀ c, (some [8, 9] : Option Bytes) = some c →
        logs_fetch false 2 (some [8, 9]) [7] [0]
            = ⟨2 + ([7] : Bytes).length, some (c ++ [7]),
               [LogEvent.incrementalFetch 2]⟩)) :=
  ⟨by decide, c1_offset_equals_file_size false 2 (some [8, 9]) [7] [0]
      (by decide)⟩

/-- Claim C5: in the single-job, non-follow, non-refresh `inspire job
logs` path, a positive stored offset with a missing cache file is reset
to 0 (persisted) before any fetch, and the subsequent fetch is a full
fetch, not an incremental one. -/
theorem c5_missing_cache_forces_full_fetch (stored0 : Nat) (delta full : Bytes)
    (h : 0 < stored0) :
    (logs_fetch false stored0 none delta full).trace
        = [LogEvent.resetOffset, LogEvent.fullFetch] ∧
    (logs_fetch false stored0 none delta full).stored = full.length := by
  simp [logs_fetch, h, fetch_remote_log_via_bridge, prune_old_logs,
    pruneAgeLimit]

/-- Witness for `c5_missing_cache_forces_full_fetch` at concrete inputs. -/
theorem c5_missing_cache_forces_full_fetch_witness :
    (0 < 3) ∧
    ((logs_fetch false 3 none [6] [1, 2]).trace
        = [LogEvent.resetOffset, LogEvent.fullFetch] ∧
      (logs_fetch false 3 none [6] [1, 2]).stored = ([1, 2] : Bytes).length) :=
  ⟨by decide, c5_missing_cache_forces_full_fetch 3 [6] [1, 2] (by decide)⟩

/-- Counterexample to claim C4: a run whose event payload yields no
inputs satisfies the claim's matching condition vacuously when every
expected value is empty, yet `_find_run_by_inputs` skips it (`if not
inputs: continue`) and reports no match. -/
theorem c4_counterexample :
    find_run_by_inputs [CRun.mk "77" []] [("branch", "")] = none ∧
      specClaimMatches (CRun.mk "77" []) [("branch", "")] = true := by
  decide

/-- A round of the correlation search misses when every fetched page
misses. -/
theorem syncRound_miss (fetch : Nat → Nat → Option RunsResponse)
    (expected : List (String × String)) (r : Nat)
    (h : ∀ p resp, fetch r p = some resp →
      find_run_by_inputs resp.workflow_runs expected = none) :
    (syncRound fetch expected r).1 = none := by
  unfold syncRound
  rcases h1 : fetch r 1 with _ | resp
  · simp
  · have hf := h 1 resp h1
    rcases ht : resp.total_count with _ | t
    · simp [hf, ht]
    · by_cases hlim : pageLimit < t
      · rcases h2 : fetch r ((t + pageLimit - 1) / pageLimit) with _ | resp2
        · simp [hf, ht, hlim, h2]
        · simp [hf, ht, hlim, h2, h _ resp2 h2]
      · simp [hf, ht, hlim]

/-- Claim C4 (amended): a workflow run is selected by the correlation
scan if and only if its decoded `event_payload.inputs` is non-empty and,
for every key of the expected inputs whose value is non-empty, the
stringified embedded value equals the stringified expected value (a run
with no decodable inputs is skipped even when all expected values are
empty); when a page-1 scan misses and the response's total run count
exceeds the page size 20, the last page `ceil(total / 20)` is
additionally fetched and scanned in that round; and when no fetched page
yields a match within the 3 retry rounds, the search returns the empty
string rather than raising. -/
theorem c4_correlation_semantics :
    (∀ (r : CRun) (expected : List (String × String)),
      (!r.inputs.isEmpty && matches_inputs r.inputs expected) = true ↔
        (r.inputs ≠ [] ∧ ∀ kv ∈ expected, kv.2 ≠ "" →
          lookupInput r.inputs kv.1 = kv.2)) ∧
    (∀ (fetch : Nat → Nat → Option RunsResponse)
        (expected : List (String × String)) (r : Nat) (resp : RunsResponse)
        (t : Nat),
      fetch r 1 = some resp →
      find_run_by_inputs resp.workflow_runs expected = none →
      resp.total_count = some t → pageLimit < t →
      (syncRound fetch expected r).2
        = [(r, 1), (r, (t + pageLimit - 1) / pageLimit)]) ∧
    (∀ (fetch : Nat → Nat → Option RunsResponse)
        (expected : List (String × String)),
      (∀ r p resp, fetch r p = some resp →
        find_run_by_inputs resp.workflow_runs expected = none) →
      (trigger_sync_workflow_search fetch expected).1 = "") := by
  refine ⟨?_, ?_, ?_⟩
  · intro r expected
    simp only [Bool.and_eq_true, Bool.not_eq_true', List.isEmpty_eq_false,
      ne_eq, matches_inputs, List.all_eq_true, Bool.or_eq_true, beq_iff_eq]
    constructor
    · rintro ⟨hne, hall⟩
      exact ⟨hne, fun kv hkv hv => ((hall kv hkv).resolve_left hv)⟩
    · rintro ⟨hne, hall⟩
      refine ⟨hne, fun kv hkv => ?_⟩
      by_cases hv : kv.2 = ""
      · exact Or.inl hv
      · exact Or.inr (hall kv hkv hv)
  · intro fetch expected r resp t h1 hfind ht hlim
    unfold syncRound
    rcases h2 : fetch r ((t + pageLimit - 1) / pageLimit) with _ | resp2
    · simp [h1, hfind, ht, hlim, h2]
    · rcases h3 : find_run_by_inputs resp2.workflow_runs expected with _ | run
      · simp [h1, hfind, ht, hlim, h2, h3]
      · simp [h1, hfind, ht, hlim, h2, h3]
  · intro fetch expected h
    have h0 := syncRound_miss fetch expected 0 (fun p resp => h 0 p resp)
    have h1 := syncRound_miss fetch expected 1 (fun p resp => h 1 p resp)
    have h2 := syncRound_miss fetch expected 2 (fun p resp => h 2 p resp)
    unfold trigger_sync_workflow_search
    rcases hs0 : syncRound fetch expected 0 with ⟨o0, l0⟩
    rcases hs1 : syncRound fetch expected 1 with ⟨o1, l1⟩
    rcases hs2 : syncRound fetch expected 2 with ⟨o2, l2⟩
    rw [hs0] at h0
    rw [hs1] at h1
    rw [hs2] at h2
    subst h0
    subst h1
    subst h2
    simp

/-- Witness for `c4_correlation_semantics` at concrete inputs: a run
embedding the expected request id matches; with a total of 25 runs the
last page 2 is fetched; a fetch oracle with no matching run ends in the
empty string. -/
theorem c4_correlation_semantics_witness :
    ((!(CRun.mk "9" [("request_id", "1700000000-4242")]).inputs.isEmpty &&
        matches_inputs (CRun.mk "9" [("request_id", "1700000000-4242")]).inputs
          [("request_id", "1700000000-4242")]) = true ↔
      ((CRun.mk "9" [("request_id", "1700000000-4242")]).inputs ≠ [] ∧
        ∀ kv ∈ [("request_id", "1700000000-4242")], kv.2 ≠ "" →
          lookupInput (CRun.mk "9" [("request_id", "1700000000-4242")]).inputs
            kv.1 = kv.2)) ∧
    (syncRound (fun _ _ => some (RunsResponse.mk [] (some 25)))
        [("request_id", "x")] 0).2 = [(0, 1), (0, (25 + pageLimit - 1) / pageLimit)] ∧
    (trigger_sync_workflow_search (fun _ _ => some (RunsResponse.mk [] (some 25)))
        [("request_id", "x")]).1 = "" :=
  ⟨c4_correlation_semantics.1 (CRun.mk "9" [("request_id", "1700000000-4242")])
      [("request_id", "1700000000-4242")],
   c4_correlation_semantics.2.1 (fun _ _ => some (RunsResponse.mk [] (some 25)))
      [("request_id", "x")] 0 (RunsResponse.mk [] (some 25)) 25 rfl (by decide)
      rfl (by decide),
   c4_correlation_semantics.2.2 (fun _ _ => some (RunsResponse.mk [] (some 25)))
      [("request_id", "x")] (fun r p resp hr => by
        have hresp : resp = RunsResponse.mk [] (some 25) := by
          injection hr with hh
          exact hh.symm
        rw [hresp]
        rfl)⟩

/-- Claim C6: in `bridge exec` without `--no-tunnel` and without
artifact or download requests, a failed or unavailable direct path
(probe false, probe raised, or an exception during direct execution)
leads to exactly one mediated dispatch with no direct retry after it;
and any requested artifact path or download directory skips the direct
path unconditionally, leaving only the single mediated dispatch. -/
theorem c6_exec_routing :
    (∀ (probe : ProbeResult) (direct : DirectRun),
      (probe ≠ ProbeResult.avail ∨ direct = DirectRun.raised) →
      (exec_command_route false false false probe direct
          = [ExecEvent.mediatedDispatch] ∨
        exec_command_route false false false probe direct
          = [ExecEvent.directAttempt, ExecEvent.mediatedDispatch]) ∧
      (exec_command_route false false false probe direct).count
          ExecEvent.mediatedDispatch = 1) ∧
    (∀ (noTunnel hasArtifactPaths hasDownload : Bool) (probe : ProbeResult)
        (direct : DirectRun),
      hasArtifactPaths = true ∨ hasDownload = true →
      exec_command_route noTunnel hasArtifactPaths hasDownload probe direct
        = [ExecEvent.mediatedDispatch]) := by
  constructor
  · intro probe direct h
    cases probe with
    | avail =>
      cases direct with
      | finished rc =>
        rcases h with h | h
        · exact absurd rfl h
        · simp at h
      | raised => exact ⟨Or.inr rfl, rfl⟩
    | notAvail => exact ⟨Or.inl rfl, rfl⟩
    | raisedTunnelNA => exact ⟨Or.inl rfl, rfl⟩
    | raisedOther => exact ⟨Or.inl rfl, rfl⟩
  · intro noTunnel hA hD probe direct h
    rcases h with h | h
    · subst h
      cases noTunnel <;> rfl
    · subst h
      cases noTunnel <;> cases hA <;> rfl

/-- Witness for `c6_exec_routing` at concrete inputs: a probe raising
`TunnelNotAvailableError`, and an artifact-path request. -/
theorem c6_exec_routing_witness :
    ((ProbeResult.raisedTunnelNA ≠ ProbeResult.avail ∨
        DirectRun.finished 0 = DirectRun.raised) ∧
      ((exec_command_route false false false ProbeResult.raisedTunnelNA
            (DirectRun.finished 0) = [ExecEvent.mediatedDispatch] ∨
        exec_command_route false false false ProbeResult.raisedTunnelNA
            (DirectRun.finished 0)
          = [ExecEvent.directAttempt, ExecEvent.mediatedDispatch]) ∧
      (exec_command_route false false false ProbeResult.raisedTunnelNA
          (DirectRun.finished 0)).count ExecEvent.mediatedDispatch = 1)) ∧
    exec_command_route false true false ProbeResult.avail (DirectRun.finished 0)
      = [ExecEvent.mediatedDispatch] :=
  ⟨⟨Or.inl (by decide),
    c6_exec_routing.1 ProbeResult.raisedTunnelNA (DirectRun.finished 0)
      (Or.inl (by decide))⟩,
   c6_exec_routing.2 false true false ProbeResult.avail (DirectRun.finished 0)
     (Or.inl rfl)⟩

/-- `shlex.quote` returns a non-empty all-safe string unchanged. -/
theorem shlexQuote_safe (s : List Char) (hne : s ≠ [])
    (hsafe : s.all shlexSafeChar = true) : shlexQuote s = s := by
  simp [shlexQuote, hne, hsafe]

/-- The apostrophe-escaping map is the identity on strings without an
apostrophe. -/
theorem flatMap_noquote (s : List Char)
    (h : s.all (fun c => !(c == squote)) = true) :
    s.flatMap (fun c =>
      if c == squote then [squote, sdquote, squote, sdquote, squote]
      else [c]) = s := by
  induction s with
  | nil => rfl
  | cons c cs ih =>
    simp only [List.all_cons, Bool.and_eq_true, Bool.not_eq_true'] at h
    rw [List.flatMap_cons, if_neg (by simp [h.1]), ih h.2]
    rfl

/-- `shlex.quote` wraps a string containing an unsafe character but no
apostrophe in a pair of apostrophes. -/
theorem shlexQuote_wrap (s : List Char)
    (hnotsafe : s.all shlexSafeChar = false)
    (hnoq : s.all (fun c => !(c == squote)) = true) :
    shlexQuote s = squote :: s ++ [squote] := by
  have hne : s ≠ [] := by
    intro he
    subst he
    simp at hnotsafe
  unfold shlexQuote
  rw [if_neg hne, if_neg (by simp [hnotsafe]), flatMap_noquote s hnoq]

/-- Claim C8: `_get_proxy_command` rewrites an `https://` proxy URL to
`wss://` and an `http://` one to `ws://`, leaving other URLs unchanged,
and builds the shell command `<bin> <ws-url> stdio://%h:%p` (each word
shell-quoted, so verbatim for safe words); with `quiet = True` the
helper invocation gets ` 2>/dev/null` appended and is wrapped as
`sh -c <quoted command>`, suppressing the helper's stderr. -/
theorem c8_proxy_command :
    (∀ rest : List Char,
      toWsUrl ("https://".toList ++ rest) = "wss://".toList ++ rest) ∧
    (∀ rest : List Char,
      toWsUrl ("http://".toList ++ rest) = "ws://".toList ++ rest) ∧
    (∀ url : List Char, url.take 8 ≠ "https://".toList →
      url.take 7 ≠ "http://".toList → toWsUrl url = url) ∧
    (∀ (url bin : List Char), bin ≠ [] → bin.all shlexSafeChar = true →
      toWsUrl url ≠ [] → (toWsUrl url).all shlexSafeChar = true →
      get_proxy_command url bin false
        = bin ++ ' ' :: (toWsUrl url ++ ' ' :: stdioToken)) ∧
    (∀ (url bin : List Char),
      (bin ++ ' ' :: shlexQuote (toWsUrl url) ++ ' ' :: stdioToken ++
          " 2>/dev/null".toList).all (fun c => !(c == squote)) = true →
      get_proxy_command url bin true
        = "sh -c ".toList ++ squote ::
            (bin ++ ' ' :: shlexQuote (toWsUrl url) ++ ' ' :: stdioToken ++
              " 2>/dev/null".toList) ++ [squote]) := by
  refine ⟨fun rest => rfl, fun rest => rfl, ?_, ?_, ?_⟩
  · intro url h8 h7
    unfold toWsUrl
    split
    · exact absurd rfl h8
    · exact absurd rfl h7
    · rfl
  · intro url bin h1 h2 h3 h4
    simp [get_proxy_command, shlexQuote_safe bin h1 h2, shlexQuote_safe _ h3 h4,
      shlexQuote_safe stdioToken (by decide) (by decide)]
  · intro url bin hnoq
    have hsp : shlexSafeChar ' ' = false := by decide
    have hnotsafe : (bin ++ ' ' :: shlexQuote (toWsUrl url) ++ ' ' ::
        stdioToken ++ " 2>/dev/null".toList).all shlexSafeChar = false := by
      simp [List.all_append, List.all_cons, hsp]
    have hdef : get_proxy_command url bin true
        = "sh -c ".toList ++ shlexQuote (bin ++ ' ' ::
            shlexQuote (toWsUrl url) ++ ' ' :: stdioToken ++
            " 2>/dev/null".toList) := by rfl
    rw [hdef, shlexQuote_wrap _ hnotsafe hnoq, ← List.append_assoc]

/-- Witness for `c8_proxy_command` at a concrete profile URL and helper
path. -/
theorem c8_proxy_command_witness :
    toWsUrl ("https://".toList ++ "example.com/ws?t=1".toList)
        = "wss://".toList ++ "example.com/ws?t=1".toList ∧
    ("ftp://x".toList.take 8 ≠ "https://".toList ∧
      "ftp://x".toList.take 7 ≠ "http://".toList ∧
      toWsUrl "ftp://x".toList = "ftp://x".toList) ∧
    ("/home/u/.local/bin/rtunnel".toList ≠ [] ∧
      "/home/u/.local/bin/rtunnel".toList.all shlexSafeChar = true ∧
      toWsUrl "https://example.com/ws".toList ≠ [] ∧
      (toWsUrl "https://example.com/ws".toList).all shlexSafeChar = true ∧
      get_proxy_command "https://example.com/ws".toList
          "/home/u/.local/bin/rtunnel".toList false
        = "/home/u/.local/bin/rtunnel".toList ++ ' ' ::
            (toWsUrl "https://example.com/ws".toList ++ ' ' :: stdioToken)) ∧
    (("/home/u/.local/bin/rtunnel".toList ++ ' ' ::
        shlexQuote (toWsUrl "https://example.com/ws".toList) ++ ' ' ::
          stdioToken ++ " 2>/dev/null".toList).all
            (fun c => !(c == squote)) = true ∧
      get_proxy_command "https://example.com/ws".toList
          "/home/u/.local/bin/rtunnel".toList true
        = "sh -c ".toList ++ squote ::
            ("/home/u/.local/bin/rtunnel".toList ++ ' ' ::
              shlexQuote (toWsUrl "https://example.com/ws".toList) ++ ' ' ::
                stdioToken ++ " 2>/dev/null".toList) ++ [squote]) :=
  ⟨c8_proxy_command.1 "example.com/ws?t=1".toList,
   ⟨by decide, by decide,
    c8_proxy_command.2.2.1 "ftp://x".toList (by decide) (by decide)⟩,
   ⟨by decide, by decide, by decide, by decide,
    c8_proxy_command.2.2.2.1 "https://example.com/ws".toList
      "/home/u/.local/bin/rtunnel".toList (by decide) (by decide) (by decide)
      (by decide)⟩,
   ⟨by decide,
    c8_proxy_command.2.2.2.2 "https://example.com/ws".toList
      "/home/u/.local/bin/rtunnel".toList (by decide)⟩⟩

/-- Dict assignment preserves existing keys. -/
theorem bridgeNames_dictSet_mem (l : List BridgeProfile) (p : BridgeProfile)
    (d : String) (hd : d ∈ l.map (fun q => q.name)) :
    d ∈ (dictSet l p).map (fun q => q.name) := by
  unfold dictSet
  split
  · have hmap : (l.map (fun q => if q.name == p.name then p else q)).map
        (fun q => q.name) = l.map (fun q => q.name) := by
      rw [List.map_map]
      apply List.map_congr_left
      intro q _
      by_cases hqp : q.name = p.name
      · simp [Function.comp_apply, hqp]
      · simp [Function.comp_apply, hqp]
    rw [hmap]
    exact hd
  · rw [List.map_append]
    exact List.mem_append_left _ hd

/-- An element of a dict after assignment was stored before or is the
newly assigned profile. -/
theorem mem_dictSet (l : List BridgeProfile) (p q' : BridgeProfile)
    (h : q' ∈ dictSet l p) : q' ∈ l ∨ q' = p := by
  unfold dictSet at h
  split at h
  · obtain ⟨q, hq, hfq⟩ := List.mem_map.mp h
    by_cases hqp : (q.name == p.name) = true
    · right
      rw [← hfq]
      simp [hqp]
    · left
      rw [← hfq]
      simpa [hqp] using hq
  · rcases List.mem_append.mp h with h1 | h1
    · exact Or.inl h1
    · exact Or.inr (by simpa using h1)

/-- A name present among the stored names is found by `find?`. -/
theorem find?_name_isSome (l : List BridgeProfile) (d : String)
    (hd : d ∈ l.map (fun q => q.name)) :
    (l.find? (fun q => q.name == d)).isSome := by
  induction l with
  | nil => simp at hd
  | cons q qs ih =>
    rcases List.mem_map.mp hd with ⟨q', hq', hname⟩
    rcases List.mem_cons.mp hq' with he | hmem
    · subst he
      simp [List.find?, hname]
    · by_cases hq : (q.name == d) = true
      · simp [List.find?, hq]
      · rw [List.find?]
        simp only [hq]
        exact ih (List.mem_map.mpr ⟨q', hmem, hname⟩)

/-- `add_bridge` preserves the default-pointer invariant. -/
theorem tunnelInv_add (c : TunnelConfig) (p : BridgeProfile)
    (h : tunnelInv c) : tunnelInv (add_bridge c p) := by
  obtain ⟨hiff, hmem⟩ := h
  rcases hdef : c.default_bridge with _ | d
  · have hb : c.bridges = [] := hiff.mp hdef
    have hshape : add_bridge c p
        = { bridges := [p], default_bridge := some p.name } := by
      simp [add_bridge, hdef, hb, dictSet]
    rw [hshape]
    constructor
    · simp
    · intro d' hd'
      simp only [Option.some.injEq] at hd'
      simp [bridgeNames, ← hd']
  · constructor
    · constructor
      · intro hnone
        simp [add_bridge, hdef] at hnone
      · intro hempty
        have hdm : d ∈ (dictSet c.bridges p).map (fun q => q.name) :=
          bridgeNames_dictSet_mem c.bridges p d (hmem d hdef)
        simp only [add_bridge] at hempty
        rw [hempty] at hdm
        simp at hdm
    · intro d' hd'
      have hdd : d' = d := by
        simp [add_bridge, hdef] at hd'
        exact hd'.symm
      subst hdd
      show d' ∈ (add_bridge c p).bridges.map (fun q => q.name)
      simp only [add_bridge]
      exact bridgeNames_dictSet_mem c.bridges p d' (hmem d' hdef)

/-- `remove_bridge` preserves the default-pointer invariant. -/
theorem tunnelInv_rem (c : TunnelConfig) (n : String)
    (h : tunnelInv c) : tunnelInv (remove_bridge c n).1 := by
  obtain ⟨hiff, hmem⟩ := h
  by_cases hfound : (c.bridges.any fun q => q.name == n) = true
  · have hshape : (remove_bridge c n).1
        = { bridges := c.bridges.filter fun q => !(q.name == n),
            default_bridge :=
              if c.default_bridge == some n then
                (c.bridges.filter fun q => !(q.name == n)).head?.map
                  (fun p => p.name)
              else c.default_bridge } := by
      simp [remove_bridge, hfound]
    rw [hshape]
    by_cases hdef : (c.default_bridge == some n) = true
    · rcases hrem : c.bridges.filter (fun q => !(q.name == n)) with _ | ⟨q, rest⟩
      · constructor
        · simp [hdef, hrem]
        · intro d' hd'
          simp [hdef, hrem] at hd'
      · constructor
        · simp [hdef, hrem]
        · intro d' hd'
          simp only [hdef, if_true, hrem] at hd'
          have hqd : q.name = d' := by simpa using hd'
          simp [bridgeNames, hrem, ← hqd]
    · have hbne : c.bridges ≠ [] := by
        intro hb
        rw [hb] at hfound
        simp at hfound
      rcases hdef2 : c.default_bridge with _ | d
      · exact absurd (hiff.mp hdef2) hbne
      · have hd : d ∈ bridgeNames c := hmem d hdef2
        have hdn : d ≠ n := by
          intro he
          subst he
          rw [hdef2] at hdef
          simp at hdef
        have hd_rem : d ∈ (c.bridges.filter fun q => !(q.name == n)).map
            (fun q => q.name) := by
          obtain ⟨q, hq, hname⟩ := List.mem_map.mp hd
          exact List.mem_map.mpr
            ⟨q, List.mem_filter.mpr ⟨hq, by simp [hname, hdn]⟩, hname⟩
        constructor
        · constructor
          · intro hnone
            simp [hdef2, hdn] at hnone
          · intro hempty
            exfalso
            have he : (c.bridges.filter fun q => !(q.name == n)) = [] := hempty
            rw [he] at hd_rem
            simp at hd_rem
        · intro d' hd'
          have hdd : d = d' := by
            simp [hdef2, hdn] at hd'
            exact hd'
          show d' ∈ (c.bridges.filter fun q => !(q.name == n)).map
            (fun q => q.name)
          exact hdd ▸ hd_rem
  · have hshape : (remove_bridge c n).1 = c := by
      simp [remove_bridge, hfound]
    rw [hshape]
    exact ⟨hiff, hmem⟩

/-- `add_bridge` keeps all stored names non-empty when the added profile
has a non-empty name. -/
theorem namesNonEmpty_add (c : TunnelConfig) (p : BridgeProfile)
    (hp : p.name ≠ "") (h : namesNonEmpty c) :
    namesNonEmpty (add_bridge c p) := by
  intro q hq
  rcases mem_dictSet c.bridges p q hq with hql | hqp
  · exact h q hql
  · subst hqp
    exact hp

/-- `remove_bridge` keeps all stored names non-empty. -/
theorem namesNonEmpty_rem (c : TunnelConfig) (n : String)
    (h : namesNonEmpty c) : namesNonEmpty (remove_bridge c n).1 := by
  intro q hq
  unfold remove_bridge at hq
  by_cases hf : (c.bridges.any fun q => q.name == n) = true
  · simp only [hf, if_true] at hq
    exact h q (List.mem_filter.mp hq).1
  · simp only [hf] at hq
    exact h q (by simpa using hq)

/-- With the invariant and non-empty names, `get_bridge` on `none`
returns a profile whenever one is stored. -/
theorem get_bridge_none_isSome (c : TunnelConfig) (hinv : tunnelInv c)
    (hne : namesNonEmpty c) (hb : c.bridges ≠ []) :
    (get_bridge c none).isSome = true := by
  obtain ⟨hiff, hmem⟩ := hinv
  rcases hdef : c.default_bridge with _ | d
  · exact absurd (hiff.mp hdef) hb
  · have hd : d ∈ bridgeNames c := hmem d hdef
    obtain ⟨q, hq, hname⟩ := List.mem_map.mp hd
    have hdne : d ≠ "" := hname ▸ hne q hq
    unfold get_bridge
    simp only [pyTruthyStr, hdef, Bool.not_eq_true]
    simp [hdne, find?_name_isSome c.bridges d hd]

/-- The default-pointer invariant is preserved by any operation
sequence. -/
theorem tunnelInv_applyTOps (ops : List TOp) :
    ∀ c, tunnelInv c → tunnelInv (applyTOps c ops) := by
  induction ops with
  | nil => intro c h; exact h
  | cons op rest ih =>
    intro c h
    cases op with
    | add p => exact ih (add_bridge c p) (tunnelInv_add c p h)
    | rem n => exact ih (remove_bridge c n).1 (tunnelInv_rem c n h)

/-- The invariant together with name non-emptiness is preserved by any
operation sequence whose additions carry non-empty names. -/
theorem inv_names_applyTOps (ops : List TOp) :
    ∀ c, tunnelInv c → namesNonEmpty c →
      (∀ p, TOp.add p ∈ ops → p.name ≠ "") →
      tunnelInv (applyTOps c ops) ∧ namesNonEmpty (applyTOps c ops) := by
  induction ops with
  | nil => intro c h1 h2 _; exact ⟨h1, h2⟩
  | cons op rest ih =>
    intro c h1 h2 hops
    cases op with
    | add p =>
      exact ih (add_bridge c p) (tunnelInv_add c p h1)
        (namesNonEmpty_add c p (hops p (List.mem_cons_self _ _)) h2)
        (fun p' hp' => hops p' (List.mem_cons_of_mem _ hp'))
    | rem n =>
      exact ih (remove_bridge c n).1 (tunnelInv_rem c n h1)
        (namesNonEmpty_rem c n h2)
        (fun p' hp' => hops p' (List.mem_cons_of_mem _ hp'))

/-- Counterexample to claim C10: adding a profile named `""` and then a
profile named `"b"` yields two stored bridges with default name `""`;
the Python truthiness test `elif self.default_bridge:` then fails, so
`get_bridge(None)` returns no profile although bridges exist. -/
theorem c10_counterexample :
    get_bridge (applyTOps emptyTunnelConfig
        [TOp.add (BridgeProfile.mk "" "https://a" "root" 22222),
         TOp.add (BridgeProfile.mk "b" "https://b" "root" 22222)]) none
      = none ∧
    (applyTOps emptyTunnelConfig
        [TOp.add (BridgeProfile.mk "" "https://a" "root" 22222),
         TOp.add (BridgeProfile.mk "b" "https://b" "root" 22222)]).bridges
      ≠ [] := by
  decide

/-- Claim C10 (amended): from the empty `TunnelConfig`, after any
sequence of `add_bridge`/`remove_bridge` operations, `default_bridge`
is `None` exactly when the bridges map is empty and otherwise names a
stored profile; and provided every added profile has a non-empty name,
`get_bridge(None)` returns a profile whenever at least one bridge
exists (with an empty-named default and two or more bridges, the
truthiness check on the default name makes `get_bridge(None)` return
`None`). -/
theorem c10_tunnel_config_invariant :
    (∀ ops : List TOp, tunnelInv (applyTOps emptyTunnelConfig ops)) ∧
    (∀ ops : List TOp, (∀ p, TOp.add p ∈ ops → p.name ≠ "") →
      (applyTOps emptyTunnelConfig ops).bridges ≠ [] →
      (get_bridge (applyTOps emptyTunnelConfig ops) none).isSome = true) := by
  have hinv0 : tunnelInv emptyTunnelConfig := by
    constructor
    · simp [emptyTunnelConfig]
    · intro d hd
      simp [emptyTunnelConfig] at hd
  constructor
  · intro ops
    exact tunnelInv_applyTOps ops emptyTunnelConfig hinv0
  · intro ops hops hb
    obtain ⟨h1, h2⟩ := inv_names_applyTOps ops emptyTunnelConfig hinv0
      (by intro q hq; simp [emptyTunnelConfig] at hq) hops
    exact get_bridge_none_isSome _ h1 h2 hb

/-- Witness for `c10_tunnel_config_invariant` at a concrete operation
sequence. -/
theorem c10_tunnel_config_invariant_witness :
    tunnelInv (applyTOps emptyTunnelConfig
      [TOp.add (BridgeProfile.mk "a" "https://a" "root" 22222),
       TOp.add (BridgeProfile.mk "b" "https://b" "root" 22222),
       TOp.rem "a"]) ∧
    (get_bridge (applyTOps emptyTunnelConfig
        [TOp.add (BridgeProfile.mk "a" "https://a" "root" 22222),
         TOp.add (BridgeProfile.mk "b" "https://b" "root" 22222),
         TOp.rem "a"]) none).isSome = true :=
  ⟨c10_tunnel_config_invariant.1
      [TOp.add (BridgeProfile.mk "a" "https://a" "root" 22222),
       TOp.add (BridgeProfile.mk "b" "https://b" "root" 22222),
       TOp.rem "a"],
   c10_tunnel_config_invariant.2
      [TOp.add (BridgeProfile.mk "a" "https://a" "root" 22222),
       TOp.add (BridgeProfile.mk "b" "https://b" "root" 22222),
       TOp.rem "a"]
      (by
        intro p hp
        simp only [List.mem_cons, List.not_mem_nil, or_false] at hp
        rcases hp with hp | hp | hp
        · cases hp; decide
        · cases hp; decide
        · cases hp)
      (by decide)⟩



